import Mathlib

/-!
Verification of the free/busy slot-finder of the noah-read repository,
`CalendarService.find_earliest_available_slot` in
`src/services/calendar_service.py`.

Time model.  Every `datetime` handled by the function is timezone-aware with
the fixed whole-hour offset +09:00 (Asia/Tokyo): `now` is created with that
offset, every candidate time is derived from it by `replace`/`timedelta`
arithmetic, and the busy-period endpoints returned by the freebusy query
(requested with `timeZone = Asia/Tokyo`) carry the same offset.  We therefore
embed instants as a single natural number: the count of microseconds since
some fixed local (Asia/Tokyo) midnight.  Microseconds are the full resolution
of Python `datetime`, so the embedding is exact.  `dt.hour`, `dt.minute`,
`dt.second`, `dt.microsecond` become arithmetic field extractions, and
`dt.replace(...)` becomes the corresponding floor/rebuild arithmetic.
-/

namespace NoahRead

def usPerSecond : Nat := 1000000

/-- 60 seconds. -/
def usPerMinute : Nat := 60000000

/-- 60 minutes. -/
def usPerHour : Nat := 3600000000

/-- 24 hours. -/
def usPerDay : Nat := 86400000000

/-- The 15-minute grid quantum, in microseconds. -/
def quantum : Nat := 900000000

/-- Python `dt.microsecond`. -/
def microsecondOf (t : Nat) : Nat := t % usPerSecond

/-- Python `dt.second`. -/
def secondOf (t : Nat) : Nat := t / usPerSecond % 60

/-- Python `dt.minute`. -/
def minuteOf (t : Nat) : Nat := t / usPerMinute % 60

/-- Python `dt.hour`. -/
def hourOf (t : Nat) : Nat := t / usPerHour % 24

/-- Midnight of the day containing `t`:
`dt.replace(hour=0, minute=0, second=0, microsecond=0)`. -/
def dayStart (t : Nat) : Nat := t - t % usPerDay

/-- A busy period reported by the freebusy query: `{start, end}` with both
endpoints on the common time axis (`end` is a Lean keyword, so `stop`). -/
structure BusyInterval where
  start : Nat
  stop : Nat
deriving DecidableEq

/-- `self.business_hours_start = 8` (8 AM JST) from `CalendarService.__init__`. -/
def business_hours_start : Nat := 8

/-- `self.business_hours_end = 21` (9 PM JST) from `CalendarService.__init__`. -/
def business_hours_end : Nat := 21

/-- `round_up_to_15_minutes(dt)` (and its identical copy
`round_up_to_15_minutes_inner`): if `dt.minute % 15 == 0` return
`dt.replace(second=0, microsecond=0)`; otherwise compute
`next_quarter = ((minute // 15) + 1) * 15`; if `next_quarter >= 60` return
`(dt + 1 hour).replace(minute=0, second=0, microsecond=0)`, else return
`dt.replace(minute=next_quarter, second=0, microsecond=0)`. -/
def round_up_to_15_minutes (t : Nat) : Nat :=
  if minuteOf t % 15 = 0 then
    t - t % usPerMinute
  else if 60 ≤ (minuteOf t / 15 + 1) * 15 then
    (t + usPerHour) - (t + usPerHour) % usPerHour
  else
    (t - t % usPerHour) + ((minuteOf t / 15 + 1) * 15) * usPerMinute

/-- `dt.replace(hour=h, minute=m)` leaving `second` and `microsecond`
untouched, exactly as the loop body writes it (lines 160, 165, 173). -/
def replaceHourMinute (t h m : Nat) : Nat :=
  dayStart t + h * usPerHour + m * usPerMinute + t % usPerMinute

/-- Computation of `search_start` from `now` (lines 127-137): before the
daily open hour snap to today's 08:00, at or after the close hour snap to
tomorrow's 08:00, otherwise round `now` up to the next 15-minute mark. -/
def search_start (now : Nat) : Nat :=
  if hourOf now < business_hours_start then
    dayStart now + business_hours_start * usPerHour
  else if business_hours_end ≤ hourOf now then
    dayStart (now + usPerDay) + business_hours_start * usPerHour
  else
    round_up_to_15_minutes now

/-- The busy test of lines 186: the slot `[t, t + dur_us)` is considered busy
against `p` iff `current_time < period_end and slot_end > period_start`. -/
def overlaps (dur_us t : Nat) (p : BusyInterval) : Bool :=
  decide (t < p.stop) && decide (p.start < t + dur_us)

/-- The day-close test of line 171:
`slot_end.hour >= business_hours_end or
 (slot_end.hour == business_hours_end and slot_end.minute > 0)`. -/
def closeCond (e : Nat) : Prop :=
  business_hours_end ≤ hourOf e ∨ (hourOf e = business_hours_end ∧ 0 < minuteOf e)

instance (e : Nat) : Decidable (closeCond e) := by
  unfold closeCond; infer_instance

/-- Outcome of one pass through the while-loop body (after the
`current_time < search_end` test): either `continue` with an updated
`current_time`, or `return current_time`. -/
inductive StepResult where
  | next (t : Nat)
  | found (t : Nat)
deriving DecidableEq

/-- One pass through the body of the while-loop (lines 158-207).  The tests
and jumps mirror the source line by line; `busy.find? (overlaps dur_us t)`
is the `for period in busy_periods` scan with its `break` on the first
overlap.  The trailing `current_time += timedelta(minutes=15)` of line 207
is unreachable in the source (every path before it either returns or
`continue`s), so it has no counterpart here. -/
def slotSearchStep (busy : List BusyInterval) (dur_us t : Nat) : StepResult :=
  if hourOf t < business_hours_start then
    .next (replaceHourMinute t business_hours_start 0)
  else if business_hours_end ≤ hourOf t then
    .next (replaceHourMinute (t + usPerDay) business_hours_start 0)
  else if closeCond (t + dur_us) then
    .next (replaceHourMinute (t + usPerDay) business_hours_start 0)
  else
    match busy.find? (overlaps dur_us t) with
    | some period => .next (round_up_to_15_minutes period.stop)
    | none => .found t

/-- The while-loop of lines 157-207, with explicit fuel so that the embedding
is total: `none` means the fuel ran out (the run performs more iterations
than the supplied fuel — in particular a non-terminating run yields `none`
for every fuel), `some none` means the loop exited because
`current_time < search_end` failed and the function raised
`"No available slots found in the next 30 days"`, and `some (some t)` means
the loop returned the slot start `t`. -/
def slotSearchLoop (busy : List BusyInterval) (dur_us search_end : Nat) :
    Nat → Nat → Option (Option Nat)
  | 0, _ => none
  | fuel + 1, t =>
    if t < search_end then
      match slotSearchStep busy dur_us t with
      | .found r => some (some r)
      | .next t' => slotSearchLoop busy dur_us search_end fuel t'
    else
      some none

/-- `find_earliest_available_slot(duration)` with the fetched busy list and
the current time made explicit parameters: `search_start` is computed from
`now`, the horizon is `search_start + 30 days` (line 140), the slot length is
`timedelta(minutes=duration)`, and the quantized walk is `slotSearchLoop`. -/
def find_earliest_available_slot (busy : List BusyInterval) (duration now fuel : Nat) :
    Option (Option Nat) :=
  slotSearchLoop busy (duration * usPerMinute)
    (search_start now + 30 * usPerDay) fuel (search_start now)

/-- Outcome of `find_earliest_available_slot` as the caller observes it: a
slot, or a raised `Exception` carrying a message. -/
inductive ScheduleOutcome where
  | slot (t : Nat)
  | failure (msg : String)
deriving DecidableEq

/-- The whole of `find_earliest_available_slot` including its `try/except`
(lines 142-214).  The fetch of busy periods is a parameter: `.error e` is a
raised exception with message `e` from the freebusy call, `.ok busy` the
fetched list.  Any exception raised inside the `try` — a fetch failure as
well as the function's own
`Exception("No available slots found in the next 30 days")` — is caught by
the single `except` clause and re-raised as
`Exception(f"Could not find an available slot: {str(e)}")`. -/
def find_earliest_available_slot_outcome (fetch : Except String (List BusyInterval))
    (duration now fuel : Nat) : Option ScheduleOutcome :=
  match fetch with
  | .error e => some (.failure ("Could not find an available slot: " ++ e))
  | .ok busy =>
    match find_earliest_available_slot busy duration now fuel with
    | none => none
    | some (some t) => some (.slot t)
    | some none =>
      some (.failure ("Could not find an available slot: " ++
        "No available slots found in the next 30 days"))

/-- The spec's business-hours and day-boundary constraint on a slot
(spec §3 Slot, §4.1): the half-open slot `[t, t + dur_us)` lies inside the
business window `[08:00, 21:00)` of the day containing `t`. -/
def slotWithinBusinessWindow (dur_us t : Nat) : Prop :=
  dayStart t + business_hours_start * usPerHour ≤ t ∧
  t + dur_us ≤ dayStart t + business_hours_end * usPerHour

instance (dur_us t : Nat) : Decidable (slotWithinBusinessWindow dur_us t) := by
  unfold slotWithinBusinessWindow; infer_instance

/-- The implementation's eligibility test for a candidate `t`: the three
checks a candidate must pass before the busy scan (lines 159-175). -/
def passesDayChecks (dur_us t : Nat) : Prop :=
  business_hours_start ≤ hourOf t ∧ hourOf t < business_hours_end ∧
    ¬ closeCond (t + dur_us)

instance (dur_us t : Nat) : Decidable (passesDayChecks dur_us t) := by
  unfold passesDayChecks; infer_instance

/-- The slot `[t, t + dur_us)` is disjoint from every listed busy interval,
under the half-open reading of both. -/
def slotFree (busy : List BusyInterval) (dur_us t : Nat) : Prop :=
  ∀ p ∈ busy, t + dur_us ≤ p.start ∨ p.stop ≤ t

instance (busy : List BusyInterval) (dur_us t : Nat) :
    Decidable (slotFree busy dur_us t) := by
  unfold slotFree; infer_instance

/-- Minimality bookkeeping for the walk: no grid-aligned candidate in
`[ss, t)` both passes the implementation's day checks and is free. -/
def NoEarlier (busy : List BusyInterval) (dur_us ss t : Nat) : Prop :=
  ∀ s, s % quantum = 0 → ss ≤ s → s < t →
    ¬ (passesDayChecks dur_us s ∧ slotFree busy dur_us s)

/-! Helper lemmas about the loop. -/

/-- When one pass of the loop body leaves `current_time` unchanged, the loop
never terminates: it consumes any amount of fuel. -/
lemma slotSearchLoop_stall (busy : List BusyInterval) (dur_us send t : Nat)
    (hlt : t < send) (hstep : slotSearchStep busy dur_us t = .next t) :
    ∀ fuel, slotSearchLoop busy dur_us send fuel t = none := by
  intro fuel
  induction fuel with
  | zero => rfl
  | succ n ih => simp only [slotSearchLoop, if_pos hlt, hstep]; exact ih

/-! Theorems for the claims. -/

/-- C3: refuted — the slot search does not always terminate.  With the busy
list `[10:00:00 – 10:15:30]`, duration 30 and `now` = 10:00:00, the search
jumps from 10:00 to `round_up_to_15_minutes` of the interval's end 10:15:30,
which truncates the 30 seconds and yields the still-overlapping candidate
10:15:00; every subsequent pass maps 10:15:00 back to itself, so no amount of
fuel makes the run finish: the code loops forever instead of returning a slot
or raising the no-slot error. -/
theorem C3_infinite_loop :
    ∀ fuel, find_earliest_available_slot [⟨36000000000, 36930000000⟩] 30
      36000000000 fuel = none := by
  intro fuel
  cases fuel with
  | zero => rfl
  | succ n =>
    have hss : search_start 36000000000 = 36000000000 := by decide
    have hstep1 : slotSearchStep [⟨36000000000, 36930000000⟩] (30 * usPerMinute)
        36000000000 = .next 36900000000 := by decide
    have hlt1 : 36000000000 < search_start 36000000000 + 30 * usPerDay := by decide
    unfold find_earliest_available_slot
    rw [hss] at hlt1 ⊢
    simp only [slotSearchLoop, if_pos hlt1, hstep1]
    exact slotSearchLoop_stall _ _ _ _ (by decide) (by decide) n

/-- C4: refuted at a concrete input — with the empty busy list, duration
300 minutes and `now` = 20:45, the function returns the slot
`[20:45, next day 01:45)`: it extends past the 21:00 close time of its day
and even spans two calendar days (the day of its last instant differs from
the day of its start), because the hour-of-day close test wraps past
midnight and fails to catch it. -/
theorem C4_slot_escapes_window :
    find_earliest_available_slot [] 300 74700000000 10 = some (some 74700000000) ∧
    dayStart 74700000000 + business_hours_end * usPerHour <
      74700000000 + 300 * usPerMinute ∧
    dayStart (74700000000 + 300 * usPerMinute - 1) ≠ dayStart 74700000000 := by
  exact ⟨by decide, by decide, by decide⟩

/-- C5: refuted — the `except` clause of `find_earliest_available_slot`
catches both a fetch failure and the function's own exhausted-horizon
exception and re-raises the one generic
`Exception("Could not find an available slot: ...")`; a fetch failure and a
no-room calendar can produce byte-identical outcomes, so the caller cannot
tell them apart.  Here: a fetch error versus an empty calendar with a
duration (800 minutes) that fits no day, which exhausts the 30-day horizon. -/
theorem C5_fetch_and_exhaustion_indistinguishable :
    find_earliest_available_slot_outcome
        (.error "No available slots found in the next 30 days") 800 36000000000 40 =
      find_earliest_available_slot_outcome (.ok []) 800 36000000000 40 ∧
    find_earliest_available_slot_outcome (.ok []) 800 36000000000 40 =
      some (.failure
        "Could not find an available slot: No available slots found in the next 30 days") := by
  exact ⟨by decide, by decide⟩

/-- C6 counterexample: monotonicity in the duration fails as stated.  With
the empty busy list and `now` = 20:45, duration 180 yields next day 08:00,
while the larger duration 195 yields 20:45 — an earlier start — because the
195-minute slot's end wraps to midnight and escapes the close-time test. -/
theorem C6_counterexample :
    find_earliest_available_slot [] 180 74700000000 10 = some (some 115200000000) ∧
    find_earliest_available_slot [] 195 74700000000 10 = some (some 74700000000) ∧
    74700000000 < 115200000000 := by
  exact ⟨by decide, by decide, by decide⟩

/-- C7 counterexample: with the empty busy list the result does not always
equal `search_start`.  At `now` = 20:50 the 15-minute round-up puts
`search_start` at 21:00, which the loop immediately bounces to the next
day's 08:00, so the returned start (next day 08:00) differs from
`search_start` (21:00). -/
theorem C7_counterexample :
    search_start 75000000000 = 75600000000 ∧
    find_earliest_available_slot [] 30 75000000000 10 = some (some 115200000000) ∧
    (115200000000 : Nat) ≠ 75600000000 := by
  exact ⟨by decide, by decide, by decide⟩

/-- C8: refuted — a candidate slot ending exactly at the 21:00 close time is
not eligible.  The test `slot_end.hour >= business_hours_end or
(slot_end.hour == business_hours_end and slot_end.minute > 0)` fires already
when `slot_end` is exactly 21:00 (its second disjunct is unreachable, which
betrays the intended strict comparison), so with `busy = []`,
`now` = 20:30 and duration 30 the code jumps to the next day and returns
08:00 instead of 20:30, even though the candidate's end coincides with the
close of the half-open business window. -/
theorem C8_close_boundary_rejected :
    find_earliest_available_slot [] 30 73800000000 10 = some (some 115200000000) ∧
    73800000000 + 30 * usPerMinute =
      dayStart 73800000000 + business_hours_end * usPerHour ∧
    search_start 73800000000 = 73800000000 := by
  exact ⟨by decide, by decide, by decide⟩

/-- C1 counterexample: the returned start is not the earliest grid-aligned
time satisfying the business-hours and day-boundary constraints — at
`now` = 20:45 with duration 195 and no busy intervals the returned start
20:45 does not satisfy those constraints at all: its slot runs past the
21:00 close of its day. -/
theorem C1_counterexample :
    find_earliest_available_slot [] 195 74700000000 10 = some (some 74700000000) ∧
    ¬ slotWithinBusinessWindow (195 * usPerMinute) 74700000000 := by
  exact ⟨by decide, by decide⟩

/-- C9 counterexample: the jump target after hitting a busy interval is not
always the smallest grid-aligned time no earlier than that interval's end.
For the busy interval `[9:00:00 – 9:30:30]` and candidate 9:00, the search
jumps to 9:30:00, which is strictly earlier than the interval's end 9:30:30
(the round-up drops the seconds when the minute is already on the grid). -/
theorem C9_counterexample :
    slotSearchStep [⟨32400000000, 34230000000⟩] (30 * usPerMinute) 32400000000 =
      .next 34200000000 ∧
    34200000000 < 34230000000 := by
  exact ⟨by decide, by decide⟩

/-! Arithmetic facts about the time helpers. -/

/-- The round-up helper always lands on the 15-minute grid. -/
lemma round_up_grid (e : Nat) : round_up_to_15_minutes e % quantum = 0 := by
  unfold round_up_to_15_minutes minuteOf usPerMinute usPerHour quantum
  split
  · omega
  · split <;> omega

/-- The round-up helper never goes backwards past a grid-aligned time that
the interval end strictly exceeds. -/
lemma round_up_ge (t e : Nat) (ht : t % quantum = 0) (hlt : t < e) :
    t ≤ round_up_to_15_minutes e := by
  unfold round_up_to_15_minutes minuteOf usPerMinute usPerHour at *
  unfold quantum at ht
  split
  · omega
  · split <;> omega

/-- No grid-aligned time lies in `[e, round_up_to_15_minutes e)`: a grid
point below the round-up of `e` is below `e` itself. -/
lemma grid_lt_round_up (s e : Nat) (hs : s % quantum = 0)
    (hlt : s < round_up_to_15_minutes e) : s < e := by
  unfold round_up_to_15_minutes minuteOf usPerMinute usPerHour at hlt
  unfold quantum at hs
  split at hlt
  · omega
  · split at hlt <;> omega

/-- `search_start` is 15-minute-grid aligned. -/
lemma search_start_grid (now : Nat) : search_start now % quantum = 0 := by
  unfold search_start dayStart business_hours_start business_hours_end
    hourOf usPerDay usPerHour
  split
  · unfold quantum; omega
  · split
    · unfold quantum; omega
    · exact round_up_grid now

/-- The day-jump targets of the loop stay on the grid. -/
lemma replaceHourMinute_grid (t : Nat) (ht : t % quantum = 0) :
    replaceHourMinute t business_hours_start 0 % quantum = 0 := by
  unfold replaceHourMinute dayStart business_hours_start usPerDay usPerHour
    usPerMinute quantum at *
  omega

/-- Adding a whole day keeps a time on the grid. -/
lemma add_day_grid (t : Nat) (ht : t % quantum = 0) :
    (t + usPerDay) % quantum = 0 := by
  unfold quantum at ht ⊢
  unfold usPerDay
  omega

/-- The jump to today's opening time moves weakly forward from a time whose
hour is before the opening hour. -/
lemma replaceHM_today_ge (t : Nat) (h8 : hourOf t < business_hours_start) :
    t ≤ replaceHourMinute t business_hours_start 0 := by
  unfold hourOf business_hours_start usPerHour at h8
  unfold replaceHourMinute dayStart business_hours_start usPerDay usPerHour
    usPerMinute
  omega

/-- The jump to the next day's opening time moves weakly forward. -/
lemma replaceHM_tomorrow_ge (t : Nat) :
    t ≤ replaceHourMinute (t + usPerDay) business_hours_start 0 := by
  unfold replaceHourMinute dayStart business_hours_start usPerDay usPerHour
    usPerMinute
  omega

/-- Every `continue` of the loop body keeps the candidate on the grid. -/
lemma step_next_grid (busy : List BusyInterval) (dur_us t t' : Nat)
    (ht : t % quantum = 0) (h : slotSearchStep busy dur_us t = .next t') :
    t' % quantum = 0 := by
  unfold slotSearchStep at h
  by_cases h8 : hourOf t < business_hours_start
  · rw [if_pos h8] at h
    have h1 := StepResult.next.inj h
    subst h1
    exact replaceHourMinute_grid t ht
  · rw [if_neg h8] at h
    by_cases h21 : business_hours_end ≤ hourOf t
    · rw [if_pos h21] at h
      have h1 := StepResult.next.inj h
      subst h1
      exact replaceHourMinute_grid (t + usPerDay) (add_day_grid t ht)
    · rw [if_neg h21] at h
      by_cases hc : closeCond (t + dur_us)
      · rw [if_pos hc] at h
        have h1 := StepResult.next.inj h
        subst h1
        exact replaceHourMinute_grid (t + usPerDay) (add_day_grid t ht)
      · rw [if_neg hc] at h
        cases hfind : busy.find? (overlaps dur_us t) with
        | some p =>
          rw [hfind] at h
          have h1 := StepResult.next.inj h
          subst h1
          exact round_up_grid p.stop
        | none =>
          rw [hfind] at h
          exact StepResult.noConfusion h

/-- Every `continue` of the loop body moves the candidate weakly forward
(only the degenerate busy round-down can fail to move it strictly). -/
lemma step_next_mono (busy : List BusyInterval) (dur_us t t' : Nat)
    (ht : t % quantum = 0) (h : slotSearchStep busy dur_us t = .next t') :
    t ≤ t' := by
  unfold slotSearchStep at h
  by_cases h8 : hourOf t < business_hours_start
  · rw [if_pos h8] at h
    have h1 := StepResult.next.inj h
    subst h1
    exact replaceHM_today_ge t h8
  · rw [if_neg h8] at h
    by_cases h21 : business_hours_end ≤ hourOf t
    · rw [if_pos h21] at h
      have h1 := StepResult.next.inj h
      subst h1
      exact replaceHM_tomorrow_ge t
    · rw [if_neg h21] at h
      by_cases hc : closeCond (t + dur_us)
      · rw [if_pos hc] at h
        have h1 := StepResult.next.inj h
        subst h1
        exact replaceHM_tomorrow_ge t
      · rw [if_neg hc] at h
        cases hfind : busy.find? (overlaps dur_us t) with
        | some p =>
          rw [hfind] at h
          have h1 := StepResult.next.inj h
          subst h1
          have hp := List.find?_some hfind
          unfold overlaps at hp
          have hlt : t < p.stop := by
            have := Bool.and_elim_left hp
            simpa using this
          exact round_up_ge t p.stop ht hlt
        | none =>
          rw [hfind] at h
          exact StepResult.noConfusion h

/-- Properties of the state at which the loop returns: the candidate passed
the three day checks and the busy scan found no overlap. -/
lemma step_found_props (busy : List BusyInterval) (dur_us t r : Nat)
    (h : slotSearchStep busy dur_us t = .found r) :
    r = t ∧ passesDayChecks dur_us t ∧ busy.find? (overlaps dur_us t) = none := by
  unfold slotSearchStep at h
  by_cases h8 : hourOf t < business_hours_start
  · rw [if_pos h8] at h
    exact StepResult.noConfusion h
  · rw [if_neg h8] at h
    by_cases h21 : business_hours_end ≤ hourOf t
    · rw [if_pos h21] at h
      exact StepResult.noConfusion h
    · rw [if_neg h21] at h
      by_cases hc : closeCond (t + dur_us)
      · rw [if_pos hc] at h
        exact StepResult.noConfusion h
      · rw [if_neg hc] at h
        cases hfind : busy.find? (overlaps dur_us t) with
        | some p =>
          rw [hfind] at h
          exact StepResult.noConfusion h
        | none =>
          rw [hfind] at h
          have h1 := StepResult.found.inj h
          subst h1
          exact ⟨rfl, ⟨Nat.not_lt.mp h8, Nat.not_le.mp h21, hc⟩, rfl⟩

/-- Main induction over the fuel: any property of candidate states that is
preserved by every `continue` holds at the returned slot, together with the
found-state facts. -/
lemma slotSearchLoop_inv (busy : List BusyInterval) (dur_us send : Nat)
    (P : Nat → Prop)
    (hstep : ∀ t t', P t → slotSearchStep busy dur_us t = .next t' → P t') :
    ∀ fuel t r, P t → slotSearchLoop busy dur_us send fuel t = some (some r) →
      P r ∧ passesDayChecks dur_us r ∧ busy.find? (overlaps dur_us r) = none := by
  intro fuel
  induction fuel with
  | zero => intro t r _ h; cases h
  | succ n ih =>
    intro t r hP h
    rw [slotSearchLoop] at h
    by_cases hlt : t < send
    · rw [if_pos hlt] at h
      cases hs : slotSearchStep busy dur_us t with
      | found r0 =>
        rw [hs] at h
        obtain ⟨hr0, hpass, hnone⟩ := step_found_props busy dur_us t r0 hs
        have h1 : r0 = r := by
          injection h with hx
          injection hx
        rw [h1] at hr0
        subst hr0
        exact ⟨hP, hpass, hnone⟩
      | next t' =>
        rw [hs] at h
        exact ih t' r (hstep t t' hP hs) h
    · rw [if_neg hlt] at h
      cases h

/-- C2: confirmed — whenever the search returns a slot, that slot overlaps
no busy interval of the input list (no matter how unsorted, overlapping or
duplicated the list is), and disjointness is the half-open one: the returned
slot may end exactly at a busy start or begin exactly at a busy end. -/
theorem C2_returned_slot_disjoint (busy : List BusyInterval)
    (duration now fuel t : Nat)
    (h : find_earliest_available_slot busy duration now fuel = some (some t)) :
    ∀ p ∈ busy, t + duration * usPerMinute ≤ p.start ∨ p.stop ≤ t := by
  unfold find_earliest_available_slot at h
  obtain ⟨-, -, hnone⟩ := slotSearchLoop_inv busy (duration * usPerMinute)
    (search_start now + 30 * usPerDay) (fun _ => True)
    (fun _ _ _ _ => trivial) fuel (search_start now) t trivial h
  intro p hp
  have hne := List.find?_eq_none.mp hnone p hp
  unfold overlaps at hne
  simp only [Bool.and_eq_true, decide_eq_true_eq, not_and, not_lt] at hne
  omega

/-- C2 witness: for the busy list `[9:00 – 10:00]`, `now` = 8:00 and
duration 60 the function returns 8:00, and the returned slot ends exactly
when the busy interval starts — it is counted free at the boundary. -/
theorem C2_witness :
    28800000000 + 60 * usPerMinute ≤ 32400000000 ∨ 36000000000 ≤ 28800000000 := by
  have h := C2_returned_slot_disjoint [⟨32400000000, 36000000000⟩] 60
    28800000000 5 28800000000 (by decide)
  exact h ⟨32400000000, 36000000000⟩ (by simp)

/-- C10: confirmed — every slot start the function returns lies on the
15-minute grid: its minute is 0, 15, 30 or 45 and its second and
microsecond are zero.  The invariant is established by `search_start` and
preserved by every jump of the loop. -/
theorem C10_returned_slot_on_grid (busy : List BusyInterval)
    (duration now fuel t : Nat)
    (h : find_earliest_available_slot busy duration now fuel = some (some t)) :
    (minuteOf t = 0 ∨ minuteOf t = 15 ∨ minuteOf t = 30 ∨ minuteOf t = 45) ∧
    secondOf t = 0 ∧ microsecondOf t = 0 := by
  unfold find_earliest_available_slot at h
  obtain ⟨hg, -, -⟩ := slotSearchLoop_inv busy (duration * usPerMinute)
    (search_start now + 30 * usPerDay) (fun s => s % quantum = 0)
    (fun a b ha hb => step_next_grid busy (duration * usPerMinute) a b ha hb)
    fuel (search_start now) t (search_start_grid now) h
  unfold quantum at hg
  unfold minuteOf secondOf microsecondOf usPerMinute usPerSecond
  omega

/-- C10 witness: with the busy list `[9:15 – 9:35]`, `now` = 9:00 and
duration 30 the function returns 9:45 — after jumping over the busy
interval the returned start is still on the grid. -/
theorem C10_witness :
    (minuteOf 35100000000 = 0 ∨ minuteOf 35100000000 = 15 ∨
      minuteOf 35100000000 = 30 ∨ minuteOf 35100000000 = 45) ∧
    secondOf 35100000000 = 0 ∧ microsecondOf 35100000000 = 0 :=
  C10_returned_slot_on_grid [⟨33300000000, 34500000000⟩] 30 32400000000 5
    35100000000 (by decide)

/-- C7 amended: if the busy list is empty and the first candidate —
`search_start` itself, computed by the claim's case analysis — passes the
implementation's business-hour and close-time checks, the returned start
equals `search_start`.  (The claim as stated fails when quantization pushes
`search_start` to 21:00 or when the close-time check rejects the first
candidate; see the counterexample.)  The 22:30 scenario of the claim holds
and is the witness below. -/
theorem C7_amended (duration now fuel : Nat) (hfuel : 0 < fuel)
    (h8 : business_hours_start ≤ hourOf (search_start now))
    (h21 : hourOf (search_start now) < business_hours_end)
    (hclose : ¬ closeCond (search_start now + duration * usPerMinute)) :
    find_earliest_available_slot [] duration now fuel =
      some (some (search_start now)) := by
  unfold find_earliest_available_slot
  cases fuel with
  | zero => exact absurd hfuel (Nat.lt_irrefl 0)
  | succ f =>
    rw [slotSearchLoop]
    rw [if_pos (by unfold usPerDay; omega)]
    have hs : slotSearchStep [] (duration * usPerMinute) (search_start now) =
        .found (search_start now) := by
      unfold slotSearchStep
      rw [if_neg (Nat.not_lt.mpr h8), if_neg (Nat.not_le.mpr h21), if_neg hclose]
      rfl
    rw [hs]

/-- C7 witness — the claim's concrete scenario: `now` = 22:30 JST, empty
busy list, duration 30; `search_start` snaps to the next day's 08:00 and
the function returns exactly that. -/
theorem C7_witness :
    find_earliest_available_slot [] 30 81000000000 1 = some (some 115200000000) := by
  have h := C7_amended 30 81000000000 1 (by decide) (by decide) (by decide) (by decide)
  rw [h]
  decide

/-! The minimality argument: the walk never jumps over a candidate that the
implementation itself would have accepted.  One lemma per kind of jump. -/

/-- Candidates skipped by the before-opening jump have an hour before the
opening hour. -/
lemma skipA (t s : Nat) (ht : t % quantum = 0)
    (_h8 : hourOf t < business_hours_start) (hts : t ≤ s)
    (hlt : s < replaceHourMinute t business_hours_start 0) :
    hourOf s < business_hours_start := by
  unfold quantum at ht
  unfold replaceHourMinute dayStart business_hours_start usPerDay usPerHour
    usPerMinute at hlt
  unfold hourOf business_hours_start usPerHour
  omega

/-- Candidates skipped by the after-close jump are either still at or after
the closing hour of the current day, or before the opening hour of the next
day. -/
lemma skipB (t s : Nat) (ht : t % quantum = 0)
    (h21 : business_hours_end ≤ hourOf t) (hts : t ≤ s)
    (hlt : s < replaceHourMinute (t + usPerDay) business_hours_start 0) :
    hourOf s < business_hours_start ∨ business_hours_end ≤ hourOf s := by
  unfold quantum at ht
  unfold hourOf business_hours_end usPerHour at h21
  unfold replaceHourMinute dayStart business_hours_start usPerDay usPerHour
    usPerMinute at hlt
  unfold hourOf business_hours_start business_hours_end usPerHour
  omega

/-- Candidates skipped by the close-time jump fail the implementation's day
checks themselves, provided the duration cannot wrap past midnight
(at most 180 minutes). -/
lemma skipC (dur_us t s : Nat) (hdur : dur_us ≤ 10800000000)
    (ht : t % quantum = 0)
    (h8 : business_hours_start ≤ hourOf t) (h21 : hourOf t < business_hours_end)
    (hc : closeCond (t + dur_us)) (hts : t ≤ s)
    (hlt : s < replaceHourMinute (t + usPerDay) business_hours_start 0) :
    ¬ passesDayChecks dur_us s := by
  rintro ⟨hp8, hp21, hpc⟩
  apply hpc
  refine Or.inl ?_
  unfold closeCond at hc
  unfold quantum at ht
  unfold hourOf business_hours_start usPerHour at h8
  unfold hourOf business_hours_end usPerHour at h21
  unfold hourOf minuteOf business_hours_end usPerHour usPerMinute at hc
  unfold hourOf business_hours_start usPerHour at hp8
  unfold hourOf business_hours_end usPerHour at hp21
  unfold replaceHourMinute dayStart business_hours_start usPerDay usPerHour
    usPerMinute at hlt
  unfold hourOf business_hours_end usPerHour
  omega

/-- An empty busy scan means the candidate slot is disjoint from every busy
interval. -/
lemma find?_none_slotFree (busy : List BusyInterval) (dur_us r : Nat)
    (hnone : busy.find? (overlaps dur_us r) = none) :
    slotFree busy dur_us r := by
  intro p hp
  have hne := List.find?_eq_none.mp hnone p hp
  unfold overlaps at hne
  simp only [Bool.and_eq_true, decide_eq_true_eq, not_and, not_lt] at hne
  omega

/-- One pass of the loop body preserves the minimality invariant, for
durations of at most 180 minutes. -/
lemma step_preserves_min (busy : List BusyInterval) (dur_us ss : Nat)
    (hdur : dur_us ≤ 10800000000) (t t' : Nat)
    (hP : t % quantum = 0 ∧ ss ≤ t ∧ NoEarlier busy dur_us ss t)
    (hstep : slotSearchStep busy dur_us t = .next t') :
    t' % quantum = 0 ∧ ss ≤ t' ∧ NoEarlier busy dur_us ss t' := by
  obtain ⟨ht, hss, hNE⟩ := hP
  refine ⟨step_next_grid busy dur_us t t' ht hstep,
    le_trans hss (step_next_mono busy dur_us t t' ht hstep), ?_⟩
  intro s hsgrid hsss hslt
  by_cases hst : s < t
  · exact hNE s hsgrid hsss hst
  · push_neg at hst
    unfold slotSearchStep at hstep
    by_cases h8 : hourOf t < business_hours_start
    · rw [if_pos h8] at hstep
      have h1 := StepResult.next.inj hstep
      subst h1
      rintro ⟨⟨hp8, -, -⟩, -⟩
      exact absurd (skipA t s ht h8 hst hslt) (Nat.not_lt.mpr hp8)
    · rw [if_neg h8] at hstep
      by_cases h21 : business_hours_end ≤ hourOf t
      · rw [if_pos h21] at hstep
        have h1 := StepResult.next.inj hstep
        subst h1
        rintro ⟨⟨hp8, hp21, -⟩, -⟩
        rcases skipB t s ht h21 hst hslt with hlo | hhi
        · exact (Nat.not_le.mpr hlo) hp8
        · exact (Nat.not_le.mpr hp21) hhi
      · rw [if_neg h21] at hstep
        by_cases hcl : closeCond (t + dur_us)
        · rw [if_pos hcl] at hstep
          have h1 := StepResult.next.inj hstep
          subst h1
          rintro ⟨hpass, -⟩
          exact skipC dur_us t s hdur ht (Nat.not_lt.mp h8) (Nat.not_le.mp h21)
            hcl hst hslt hpass
        · rw [if_neg hcl] at hstep
          cases hfind : busy.find? (overlaps dur_us t) with
          | some p =>
            rw [hfind] at hstep
            have h1 := StepResult.next.inj hstep
            subst h1
            rintro ⟨-, hfree⟩
            have hp := List.find?_some hfind
            have hmem := List.mem_of_find?_eq_some hfind
            unfold overlaps at hp
            simp only [Bool.and_eq_true, decide_eq_true_eq] at hp
            have hsp : s < p.stop := grid_lt_round_up s p.stop hsgrid hslt
            have hdis := hfree p hmem
            omega
          | none =>
            rw [hfind] at hstep
            exact StepResult.noConfusion hstep

/-- The loop returns the least grid-aligned candidate at or after its start
state that passes the day checks and is free — for durations that cannot
wrap past midnight. -/
lemma slotSearchLoop_min (busy : List BusyInterval) (dur_us send ss : Nat)
    (hdur : dur_us ≤ 10800000000) (fuel t r : Nat)
    (ht : t % quantum = 0) (hss : ss ≤ t) (hNE : NoEarlier busy dur_us ss t)
    (h : slotSearchLoop busy dur_us send fuel t = some (some r)) :
    r % quantum = 0 ∧ ss ≤ r ∧ passesDayChecks dur_us r ∧
      slotFree busy dur_us r ∧ NoEarlier busy dur_us ss r := by
  obtain ⟨⟨hg, hs2, hNE2⟩, hpass, hnone⟩ := slotSearchLoop_inv busy dur_us send
    (fun u => u % quantum = 0 ∧ ss ≤ u ∧ NoEarlier busy dur_us ss u)
    (fun a b hPa hab => step_preserves_min busy dur_us ss hdur a b hPa hab)
    fuel t r ⟨ht, hss, hNE⟩ h
  exact ⟨hg, hs2, hpass, find?_none_slotFree busy dur_us r hnone, hNE2⟩

/-- Enlarging the slot keeps the close-time condition firing, as long as
the larger duration still cannot wrap past midnight. -/
lemma closeCond_mono (t d1 d2 : Nat) (h12 : d1 ≤ d2) (hd2 : d2 ≤ 10800000000)
    (h8 : business_hours_start ≤ hourOf t) (h21 : hourOf t < business_hours_end)
    (hc : closeCond (t + d1)) : closeCond (t + d2) := by
  refine Or.inl ?_
  unfold closeCond at hc
  unfold hourOf business_hours_start usPerHour at h8
  unfold hourOf business_hours_end usPerHour at h21
  unfold hourOf minuteOf business_hours_end usPerHour usPerMinute at hc
  unfold hourOf business_hours_end usPerHour
  omega

/-- On whole-minute inputs the round-up helper never moves backwards. -/
lemma round_up_ge_self_whole (e : Nat) (he : e % usPerMinute = 0) :
    e ≤ round_up_to_15_minutes e := by
  unfold usPerMinute at he
  unfold round_up_to_15_minutes minuteOf usPerMinute usPerHour
  split
  · omega
  · split <;> omega

/-- On whole-minute inputs the round-up helper moves less than one grid
quantum, so its grid-aligned result is the least grid point at or after the
input. -/
lemma round_up_lt_whole (e : Nat) (he : e % usPerMinute = 0) :
    round_up_to_15_minutes e < e + quantum := by
  unfold usPerMinute at he
  unfold quantum
  unfold round_up_to_15_minutes minuteOf usPerMinute usPerHour
  split
  · omega
  · split <;> omega

/-- C1 amended: for durations of at most 180 minutes (so that slot ends
cannot wrap past midnight and escape the close-time test), whenever the
function returns a slot its start is the earliest 15-minute-grid-aligned
time at or after `search_start` that passes the implementation's
business-hour and close-time checks and overlaps no busy interval; no
earlier grid-aligned candidate satisfies all of these.  (Relative to the
claim as stated, the constraint a candidate must satisfy is the
implementation's: a slot ending exactly at 21:00 is excluded, and the
duration bound is required — see the counterexample.) -/
theorem C1_amended (busy : List BusyInterval) (duration now fuel t : Nat)
    (hdur : duration ≤ 180)
    (h : find_earliest_available_slot busy duration now fuel = some (some t)) :
    t % quantum = 0 ∧ search_start now ≤ t ∧
    passesDayChecks (duration * usPerMinute) t ∧
    slotFree busy (duration * usPerMinute) t ∧
    ∀ s, s % quantum = 0 → search_start now ≤ s → s < t →
      ¬ (passesDayChecks (duration * usPerMinute) s ∧
         slotFree busy (duration * usPerMinute) s) := by
  unfold find_earliest_available_slot at h
  have hd : duration * usPerMinute ≤ 10800000000 := by
    unfold usPerMinute
    omega
  have hm := slotSearchLoop_min busy (duration * usPerMinute)
    (search_start now + 30 * usPerDay) (search_start now) hd fuel
    (search_start now) t (search_start_grid now) le_rfl
    (fun s _ h1 h2 => absurd h2 (Nat.not_lt.mpr h1)) h
  exact hm

/-- C1 witness: busy `[8:00 – 8:30]`, `now` = 8:00, duration 30 — the
function returns 8:30, which is at or after `search_start` and on the
grid. -/
theorem C1_witness :
    search_start 28800000000 ≤ 30600000000 ∧
    passesDayChecks (30 * usPerMinute) 30600000000 := by
  have h := C1_amended [⟨28800000000, 30600000000⟩] 30 28800000000 20
    30600000000 (by decide) (by decide)
  exact ⟨h.2.1, h.2.2.1⟩

/-- C6 amended: monotonicity holds for durations of at most 180 minutes
(slots that cannot wrap past midnight): with the busy list and `now` held
fixed, if both searches return a slot then the larger duration's start is
never earlier.  (Durations long enough to wrap past midnight escape the
close-time test and can produce an earlier start — see the
counterexample.) -/
theorem C6_amended (busy : List BusyInterval) (d1 d2 now fuel1 fuel2 t1 t2 : Nat)
    (h12 : d1 ≤ d2) (hd2 : d2 ≤ 180)
    (h1 : find_earliest_available_slot busy d1 now fuel1 = some (some t1))
    (h2 : find_earliest_available_slot busy d2 now fuel2 = some (some t2)) :
    t1 ≤ t2 := by
  by_contra hgt
  push_neg at hgt
  unfold find_earliest_available_slot at h1 h2
  have hdu1 : d1 * usPerMinute ≤ 10800000000 := by
    unfold usPerMinute
    omega
  have hdu2 : d2 * usPerMinute ≤ 10800000000 := by
    unfold usPerMinute
    omega
  obtain ⟨-, -, -, -, hNE1⟩ := slotSearchLoop_min busy (d1 * usPerMinute)
    (search_start now + 30 * usPerDay) (search_start now) hdu1 fuel1
    (search_start now) t1 (search_start_grid now) le_rfl
    (fun s _ ha hb => absurd hb (Nat.not_lt.mpr ha)) h1
  obtain ⟨hg2, hss2, hp2, hf2, -⟩ := slotSearchLoop_min busy (d2 * usPerMinute)
    (search_start now + 30 * usPerDay) (search_start now) hdu2 fuel2
    (search_start now) t2 (search_start_grid now) le_rfl
    (fun s _ ha hb => absurd hb (Nat.not_lt.mpr ha)) h2
  have hmul : d1 * usPerMinute ≤ d2 * usPerMinute :=
    Nat.mul_le_mul_right usPerMinute h12
  apply hNE1 t2 hg2 hss2 hgt
  obtain ⟨hq8, hq21, hqc⟩ := hp2
  refine ⟨⟨hq8, hq21, fun hcl => hqc ?_⟩, ?_⟩
  · exact closeCond_mono t2 (d1 * usPerMinute) (d2 * usPerMinute) hmul hdu2
      hq8 hq21 hcl
  · intro p hp
    have hdis := hf2 p hp
    omega

/-- C6 witness: busy `[9:15 – 9:30]`, `now` = 9:00: duration 15 returns
9:00 (the short slot fits before the busy block), duration 30 returns 9:30;
the longer duration's start is not earlier. -/
theorem C6_witness : (32400000000 : Nat) ≤ 34200000000 :=
  C6_amended [⟨33300000000, 34200000000⟩] 15 30 32400000000 5 5
    32400000000 34200000000 (by decide) (by decide) (by decide) (by decide)

/-- C9 amended: on hitting a busy interval the search does move the
candidate directly to `round_up_to_15_minutes` of the first overlapping
interval's end; when that end lies on a whole minute this is the smallest
grid-aligned time no earlier than the end.  (For ends with a fractional
minute whose minute value is already a multiple of 15, the seconds are
dropped and the jump target lies before the end — see the
counterexample.) -/
theorem C9_amended (busy : List BusyInterval) (dur_us t : Nat) (p : BusyInterval)
    (h8 : business_hours_start ≤ hourOf t) (h21 : hourOf t < business_hours_end)
    (hc : ¬ closeCond (t + dur_us))
    (hfind : busy.find? (overlaps dur_us t) = some p) :
    slotSearchStep busy dur_us t = .next (round_up_to_15_minutes p.stop) ∧
    (p.stop % usPerMinute = 0 →
      p.stop ≤ round_up_to_15_minutes p.stop ∧
      round_up_to_15_minutes p.stop % quantum = 0 ∧
      round_up_to_15_minutes p.stop < p.stop + quantum) := by
  constructor
  · unfold slotSearchStep
    rw [if_neg (Nat.not_lt.mpr h8), if_neg (Nat.not_le.mpr h21), if_neg hc,
      hfind]
  · intro hwhole
    exact ⟨round_up_ge_self_whole p.stop hwhole, round_up_grid p.stop,
      round_up_lt_whole p.stop hwhole⟩

/-- C9 witness: busy `[9:00 – 9:50]`, candidate 9:00, duration 30 — the
jump target is `round_up_to_15_minutes 9:50` = 10:00, the least grid point
at or after the whole-minute interval end. -/
theorem C9_witness :
    35400000000 ≤ round_up_to_15_minutes 35400000000 ∧
    round_up_to_15_minutes 35400000000 % quantum = 0 ∧
    round_up_to_15_minutes 35400000000 < 35400000000 + quantum := by
  have h := C9_amended [⟨32400000000, 35400000000⟩] 1800000000 32400000000
    ⟨32400000000, 35400000000⟩ (by decide) (by decide) (by decide) (by decide)
  exact h.2 (by decide)

end NoahRead
